import Mathlib

/-!
Verification development for the bills-analysis backend.

The TypeScript sources are shallowly embedded as Lean definitions:

* `src/backend/src/BillMatcher.ts` — `Transaction`, `Bill`, `Match`,
  `matchTransactionsToBills`, `findBestMatch`, `calculateMatchScore`,
  `calculateNameSimilarity`.  JavaScript numbers are modelled as exact
  rationals (`ℚ`); `Math.round` is `jsRound` (round half toward +∞).
  `new Date(s)` is modelled by `parseIsoDate`, which handles the ISO
  `YYYY-MM-DD` form (the form used throughout the repository's data and
  tests); any other string is treated as an unparseable date (JS `NaN`
  semantics: every comparison on it is false, so the date component
  contributes 0).
* `src/backend/src/Email.ts` — `Email` with `fullContent`; strings are
  modelled as character lists so that `substring(0, 5000)` is `List.take`.
* `src/backend/src/EmailParser.ts` — the body-selection cascade
  (`extractBody`); part payloads carry their decoded text (the base64
  decoding step of the source is the identity in the model: a payload is
  truthy exactly when its decoded text is non-empty, matching
  `Buffer.from("", "base64").toString() = ""`).
* `src/backend/src/BillAnalyzer.ts` / `StatementAnalyzer.ts` — the
  response post-processing of `analyze` (`billAnalyze`,
  `statementAnalyze`) over an abstract oracle outcome
  (`Except Unit (Option String)`: `error` = the API call threw, `ok none`
  = no text in the response), with `JSON.parse` modelled by `jsonParse`
  and the greedy regexes `/\{[\s\S]*\}/`, `/\[[\s\S]*\]/` by `braceSpan`
  and `bracketSpan`; and the chunked batch loop of `analyzeBatch`
  (`analyzeBatchGo`), with the awaited `Promise.all` of a chunk modelled
  as mapping the (deterministic) per-document analysis over the chunk —
  `Promise.all` resolves positionally, so a chunk's results are in chunk
  order independent of completion order.
-/

/-! ## JavaScript arithmetic helpers -/

-- The kernel evaluates concrete rational arithmetic in the witnesses below;
-- these Batteries definitions are `@[irreducible]` only to keep `simp`
-- normal forms stable, so making them semireducible here is sound.
attribute [local semireducible] Rat.add Rat.sub Rat.mul Rat.inv Rat.ofScientific

/-- `Math.round`: round half toward positive infinity, i.e. `⌊q + 1/2⌋`,
computed as a floor division on the rational's normal form so that the
kernel can evaluate it. -/
def jsRound (q : ℚ) : Int :=
  let r := q + 1/2
  Int.fdiv r.num (r.den : Int)

/-! ## Date parsing (`new Date(s)` on ISO `YYYY-MM-DD` strings) -/

def digitVal (c : Char) : Nat := c.toNat - 48

def isLeapYear (y : Nat) : Bool := y % 4 == 0 && (y % 100 != 0 || y % 400 == 0)

def daysInMonth (y m : Nat) : Nat :=
  if m == 2 then (if isLeapYear y then 29 else 28)
  else if m == 4 || m == 6 || m == 9 || m == 11 then 30
  else 31

/-- Days since 1970-01-01 of a civil date (Gregorian, proleptic). -/
def daysFromCivil (y m d : Nat) : Int :=
  let yy : Int := if m ≤ 2 then (y : Int) - 1 else (y : Int)
  let era : Int := Int.fdiv yy 400
  let yoe : Int := yy - era * 400
  let mp : Int := if 2 < m then (m : Int) - 3 else (m : Int) + 9
  let doy : Int := Int.fdiv (153 * mp + 2) 5 + (d : Int) - 1
  let doe : Int := yoe * 365 + Int.fdiv yoe 4 - Int.fdiv yoe 100 + doy
  era * 146097 + doe - 719468

/-- Parse an ISO `YYYY-MM-DD` string to a day number (UTC midnight, as
`new Date` gives for this format); `none` models an invalid date (`NaN`). -/
def parseIsoDate (s : String) : Option Int :=
  match s.toList with
  | [y1, y2, y3, y4, h1, m1, m2, h2, d1, d2] =>
    if y1.isDigit && y2.isDigit && y3.isDigit && y4.isDigit &&
       h1 == '-' && m1.isDigit && m2.isDigit && h2 == '-' &&
       d1.isDigit && d2.isDigit then
      let y := ((digitVal y1 * 10 + digitVal y2) * 10 + digitVal y3) * 10 + digitVal y4
      let m := digitVal m1 * 10 + digitVal m2
      let d := digitVal d1 * 10 + digitVal d2
      if 1 ≤ m && m ≤ 12 && 1 ≤ d && d ≤ daysInMonth y m then
        some (daysFromCivil y m d)
      else none
    else none
  | _ => none

/-! ## String helpers used by the matcher -/

/-- Characters matched by the JavaScript regex class `\s` (ASCII part plus
NBSP; the remaining Unicode space code points do not occur in the data). -/
def jsWs (c : Char) : Bool :=
  c == ' ' || c == '\t' || c == '\n' || c == '\r' || c == '\x0b' ||
  c == '\x0c' || c.toNat == 160

def splitWsAux : List Char → List Char → List (List Char)
  | acc, [] => if acc.isEmpty then [] else [acc.reverse]
  | acc, c :: r =>
    if jsWs c then
      if acc.isEmpty then splitWsAux [] r else acc.reverse :: splitWsAux [] r
    else splitWsAux (c :: acc) r

/-- `s.split(/\s+/)` restricted to its non-empty pieces (the possible empty
leading piece of the JS result is always removed by the length filter that
follows every use in the source). -/
def splitWords (s : String) : List String :=
  (splitWsAux [] s.toList).map String.mk

def containsSubAux (needle : List Char) : List Char → Bool
  | [] => needle.isEmpty
  | c :: rest => needle.isPrefixOf (c :: rest) || containsSubAux needle rest

/-- JavaScript `hay.includes(needle)`. -/
def containsSub (hay needle : String) : Bool :=
  containsSubAux needle.toList hay.toList

/-- JavaScript `toLowerCase` (the data is ASCII). -/
def toLowerJs (s : String) : String := s.map Char.toLower

/-! ## BillMatcher.ts -/

structure Transaction where
  date : String
  description : String
  amount : ℚ
  /-- `"debit" | "credit"` in the TypeScript type; compared as a string. -/
  type : String
deriving DecidableEq, Repr

structure Bill where
  id : String
  company : Option String
  amount : Option ℚ
  dueDate : Option String
  status : String
deriving DecidableEq, Repr

structure Match where
  transactionDate : String
  transactionDescription : String
  transactionAmount : ℚ
  billId : String
  billCompany : Option String
  billAmount : Option ℚ
  billDueDate : Option String
  confidence : Int
deriving DecidableEq, Repr

/-- Truthiness of `bill.amount` (`if (!bill.amount) continue`): non-null
and non-zero. -/
def amountTruthy (bill : Bill) : Bool :=
  match bill.amount with
  | some a => a != 0
  | none => false

/-- The `commonMappings` table of `calculateNameSimilarity`, in source
(insertion) order. -/
def commonMappings : List (String × List String) :=
  [("electricity", ["agl", "origin", "energy", "ausgrid"]),
   ("internet", ["optus", "telstra", "nbn", "tpg", "iinet"]),
   ("phone", ["optus", "telstra", "vodafone", "amaysim"]),
   ("insurance", ["nrma", "allianz", "qbe", "suncorp"]),
   ("netflix", ["netflix"]),
   ("spotify", ["spotify"]),
   ("amazon", ["amzn", "amazon", "aws"])]

def calculateNameSimilarity (txDesc billCompany : String) : ℚ :=
  let billWords := (splitWords billCompany).filter (fun w => 2 < w.length)
  if billWords.isEmpty then 0
  else
    let matchCount := (billWords.filter (fun w => containsSub txDesc w)).length
    if containsSub txDesc billCompany then 1
    else if commonMappings.any
        (fun p => containsSub billCompany p.1 && p.2.any (fun kw => containsSub txDesc kw)) then
      4/5
    else (matchCount : ℚ) / (billWords.length : ℚ)

/-- The date block of `calculateMatchScore` (guarded by the truthiness of
`bill.dueDate`; an unparseable date gives `NaN`, whose comparisons are all
false, hence 0). -/
def dateScore (tx : Transaction) (bill : Bill) : ℚ :=
  match bill.dueDate with
  | none => 0
  | some d =>
    if d = "" then 0
    else
      match parseIsoDate tx.date, parseIsoDate d with
      | some t, some u =>
        let diff : Int := t - u
        if -7 ≤ diff ∧ diff ≤ 14 then 3/10
        else if -14 ≤ diff ∧ diff ≤ 30 then 3/20
        else 0
      | _, _ => 0

/-- The company-name block of `calculateMatchScore` (guarded by the
truthiness of `bill.company`). -/
def nameScore (tx : Transaction) (bill : Bill) : ℚ :=
  match bill.company with
  | none => 0
  | some comp =>
    if comp = "" then 0
    else calculateNameSimilarity (toLowerJs tx.description) (toLowerJs comp) * (1/5)

def calculateMatchScore (tx : Transaction) (bill : Bill) : ℚ :=
  if amountTruthy bill then
    let a := bill.amount.getD 0
    let amountDiff := |tx.amount - a| / a
    if amountDiff ≤ 2/100 then 1/2 + dateScore tx bill + nameScore tx bill
    else if amountDiff ≤ 5/100 then 3/10 + dateScore tx bill + nameScore tx bill
    else 0
  else dateScore tx bill + nameScore tx bill

def mkMatch (tx : Transaction) (bill : Bill) (score : ℚ) : Match :=
  { transactionDate := tx.date
    transactionDescription := tx.description
    transactionAmount := tx.amount
    billId := bill.id
    billCompany := bill.company
    billAmount := bill.amount
    billDueDate := bill.dueDate
    confidence := jsRound (score * 100) }

/-- The loop of `findBestMatch`, with the running `bestMatch`/`bestScore`
(`score > bestScore && score >= 0.5` selects; `!bill.amount` skips). -/
def findBestMatchGo (tx : Transaction) : List Bill → Option Match → ℚ → Option Match
  | [], best, _ => best
  | bill :: rest, best, bestScore =>
    if amountTruthy bill then
      if bestScore < calculateMatchScore tx bill ∧ 1/2 ≤ calculateMatchScore tx bill then
        findBestMatchGo tx rest (some (mkMatch tx bill (calculateMatchScore tx bill)))
          (calculateMatchScore tx bill)
      else findBestMatchGo tx rest best bestScore
    else findBestMatchGo tx rest best bestScore

def findBestMatch (tx : Transaction) (bills : List Bill) : Option Match :=
  findBestMatchGo tx bills none 0

def matchTransactionsToBills (transactions : List Transaction) (bills : List Bill) :
    List Match :=
  let unpaidBills := bills.filter (fun b => b.status ≠ "paid")
  transactions.filterMap
    (fun tx => if tx.type = "debit" then findBestMatch tx unpaidBills else none)

/-! ## Email.ts

Strings are modelled as character lists so that `substring(0, 5000)` is
`List.take 5000`.  The `from` field of the source is named `sender` here
(`from` is a Lean keyword). -/

structure Email where
  id : List Char
  subject : List Char
  sender : List Char
  date : List Char
  body : List Char
  pdfText : List Char

/-- `get fullContent() { return (this.body + this.pdfText).substring(0, 5000); }` -/
def fullContent (e : Email) : List Char := (e.body ++ e.pdfText).take 5000

/-! ## EmailParser.ts — body selection

A part's `data` holds the decoded text (`Buffer.from(data, "base64").toString()`
of the source); `none` models an absent field.  The source's truthiness test
on the base64 payload coincides with non-emptiness of the decoded text. -/

structure PartBody where
  data : Option String
deriving DecidableEq, Repr

structure MessagePart where
  mimeType : String
  body : Option PartBody
deriving DecidableEq, Repr

structure MessagePayload where
  body : Option PartBody
  parts : Option (List MessagePart)
deriving DecidableEq, Repr

/-- Truthiness of the optional-chained `x?.body?.data`: present and non-empty. -/
def truthyData (ob : Option PartBody) : Option String :=
  match ob with
  | some pb =>
    match pb.data with
    | some s => if s = "" then none else some s
    | none => none
  | none => none

/-- `body.replace(/<[^>]*>/g, " ")`: drop the first `'>'` and everything
before it; `none` when the list has no `'>'`. -/
def dropThroughGt : List Char → Option (List Char)
  | [] => none
  | c :: r => if c = '>' then some r else dropThroughGt r

def stripTagsF : Nat → List Char → List Char
  | 0, l => l
  | _ + 1, [] => []
  | n + 1, c :: rest =>
    if c = '<' then
      match dropThroughGt rest with
      | some after => ' ' :: stripTagsF n after
      | none => c :: stripTagsF n rest
    else c :: stripTagsF n rest

/-- `body.replace(/<[^>]*>/g, " ")`: each `<...>` group (up to the next
`'>'`) becomes one space; a `'<'` with no later `'>'` stays.  The fuel
`l.length` always suffices since every step consumes at least one
character. -/
def stripTags (l : List Char) : List Char := stripTagsF l.length l

/-- `.replace(/\s+/g, " ")` as a single pass; the flag records whether the
previous character was whitespace (i.e. we are inside a `\s+` run). -/
def collapseWsGo : Bool → List Char → List Char
  | _, [] => []
  | prev, c :: r =>
    if jsWs c then
      if prev then collapseWsGo true r else ' ' :: collapseWsGo true r
    else c :: collapseWsGo false r

def collapseWs (l : List Char) : List Char := collapseWsGo false l

/-- The body produced by the `text/plain` branch: the first part with
media type exactly `"text/plain"` when its payload is truthy, else `""`. -/
def plainBodyOf (parts : List MessagePart) : String :=
  match parts.find? (fun q => q.mimeType == "text/plain") with
  | some tp =>
    match truthyData tp.body with
    | some s => s
    | none => ""
  | none => ""

/-- The body-selection cascade of `EmailParser.parse` (lines 15–31 of the
source): inline payload, else first `text/plain` part, else — whenever the
body is still empty — first `text/html` part with tags stripped and
whitespace collapsed. -/
def extractBody (p : MessagePayload) : String :=
  match truthyData p.body with
  | some s => s
  | none =>
    match p.parts with
    | none => ""
    | some parts =>
      let plainBody := plainBodyOf parts
      if plainBody ≠ "" then plainBody
      else
        match parts.find? (fun q => q.mimeType == "text/html") with
        | some hp =>
          match truthyData hp.body with
          | some s => String.mk (collapseWs (stripTags s.toList))
          | none => ""
        | none => ""

/-! ## The batch loop of `analyzeBatch`

`for (let i = 0; i < xs.length; i += concurrency) { const batch =
xs.slice(i, i + concurrency); results.push(...await Promise.all(batch.map
(analyze))); }` — identical in `BillAnalyzer.analyzeBatch` and
`StatementAnalyzer.analyzeBatch`.  The awaited `Promise.all` of one chunk
is modelled as `List.map f` over the chunk: `Promise.all` resolves
positionally, so the chunk's results are in chunk order whatever the
completion order of the individual calls.  `concurrency` is an `Int` (a JS
number); iteration is metered by explicit fuel, `none` meaning the loop
did not finish within the given fuel. -/

/-- Index conversion of `Array.prototype.slice`: negative indices count
from the end, then clamp to `[0, len]`. -/
def jsSliceIdx (len : Nat) (i : Int) : Nat :=
  if i < 0 then len - (-i).toNat else min i.toNat len

/-- `xs.slice(s, e)` of JavaScript. -/
def jsSlice {α : Type} (xs : List α) (s e : Int) : List α :=
  (xs.take (jsSliceIdx xs.length e)).drop (jsSliceIdx xs.length s)

def analyzeBatchGo {α β : Type} (f : α → β) (xs : List α) (c : Int) :
    Nat → Int → List β → Option (List β)
  | 0, i, acc => if i < (xs.length : Int) then none else some acc
  | n + 1, i, acc =>
    if i < (xs.length : Int) then
      analyzeBatchGo f xs c n (i + c) (acc ++ (jsSlice xs i (i + c)).map f)
    else some acc

/-- `analyzeBatch` with fuel `xs.length + 1`, which suffices whenever the
loop terminates at all (positive `concurrency` advances `i` by at least 1
per iteration). -/
def analyzeBatch {α β : Type} (f : α → β) (xs : List α) (c : Int) : Option (List β) :=
  analyzeBatchGo f xs c (xs.length + 1) 0 []

/-- Termination of the batch call, over all fuels. -/
def batchCompletes {α β : Type} (f : α → β) (xs : List α) (c : Int) : Prop :=
  ∃ fuel r, analyzeBatchGo f xs c fuel 0 [] = some r

/-- Modelled from the spec: "partition the input sequence into consecutive
chunks of size `concurrency` (last chunk may be smaller)". -/
def specChunks {α : Type} (c : Nat) : List α → List (List α)
  | [] => []
  | x :: rest => (x :: rest.take (c - 1)) :: specChunks c (rest.drop (c - 1))
termination_by xs => xs.length
decreasing_by
  simp only [List.length_drop, List.length_cons]
  omega

/-! ## JSON values and `JSON.parse`

`JSON.parse` is modelled by `jsonParse` below: JSON values as the
inductive `Json`, with numbers as exact rationals. -/

inductive Json where
  | null : Json
  | bool : Bool → Json
  | num : ℚ → Json
  | str : String → Json
  | arr : List Json → Json
  | obj : List (String × Json) → Json

/-- Property access `j.k` on a parsed value: defined only on objects, and
for duplicate keys `JSON.parse` keeps the last occurrence. -/
def getField (k : String) : Json → Option Json
  | Json.obj fields => getFieldAux k fields
  | _ => none
where getFieldAux (k : String) : List (String × Json) → Option Json
  | [] => none
  | (k', v) :: rest =>
    match getFieldAux k rest with
    | some v' => some v'
    | none => if k' == k then some v else none

/-- JavaScript truthiness of a parsed JSON value. -/
def jsTruthy : Json → Bool
  | Json.null => false
  | Json.bool b => b
  | Json.num q => q != 0
  | Json.str s => s != ""
  | Json.arr _ => true
  | Json.obj _ => true

/-- Truthiness of a possibly-undefined property (`undefined` is falsy). -/
def jsTruthyOpt : Option Json → Bool
  | none => false
  | some j => jsTruthy j

def jsonSkipWs (cs : List Char) : List Char :=
  cs.dropWhile (fun c => c == ' ' || c == '\t' || c == '\n' || c == '\r')

def hexVal (c : Char) : Option Nat :=
  if c.isDigit then some (c.toNat - 48)
  else if 'a' ≤ c ∧ c ≤ 'f' then some (c.toNat - 87)
  else if 'A' ≤ c ∧ c ≤ 'F' then some (c.toNat - 55)
  else none

/-- Body of a JSON string literal, after the opening quote. -/
def jsonStringAux : Nat → List Char → List Char → Option (String × List Char)
  | 0, _, _ => none
  | fuel + 1, acc, cs =>
    match cs with
    | [] => none
    | '"' :: rest => some (String.mk acc.reverse, rest)
    | '\\' :: e :: rest =>
      if e = '"' then jsonStringAux fuel ('"' :: acc) rest
      else if e = '\\' then jsonStringAux fuel ('\\' :: acc) rest
      else if e = '/' then jsonStringAux fuel ('/' :: acc) rest
      else if e = 'b' then jsonStringAux fuel ('\x08' :: acc) rest
      else if e = 'f' then jsonStringAux fuel ('\x0c' :: acc) rest
      else if e = 'n' then jsonStringAux fuel ('\n' :: acc) rest
      else if e = 'r' then jsonStringAux fuel ('\r' :: acc) rest
      else if e = 't' then jsonStringAux fuel ('\t' :: acc) rest
      else if e = 'u' then
        match rest with
        | h1 :: h2 :: h3 :: h4 :: rest2 =>
          match hexVal h1, hexVal h2, hexVal h3, hexVal h4 with
          | some a, some b, some c, some d =>
            jsonStringAux fuel (Char.ofNat (((a * 16 + b) * 16 + c) * 16 + d) :: acc) rest2
          | _, _, _, _ => none
        | _ => none
      else none
    | c :: rest => jsonStringAux fuel (c :: acc) rest

def digitsToNat (l : List Char) : Nat :=
  l.foldl (fun a c => a * 10 + (c.toNat - 48)) 0

/-- An optionally signed digit run (the exponent part of a JSON number). -/
def jsonSignedDigits (cs : List Char) : Option (Int × List Char) :=
  let (neg, cs1) :=
    match cs with
    | '+' :: r => (false, r)
    | '-' :: r => (true, r)
    | r => (false, r)
  match cs1.takeWhile Char.isDigit with
  | [] => none
  | ds =>
    let n : Int := (digitsToNat ds : Int)
    some (if neg then -n else n, cs1.dropWhile Char.isDigit)

/-- A JSON number literal, as an exact rational. -/
def jsonNumber (cs : List Char) : Option (ℚ × List Char) :=
  let (neg, cs1) :=
    match cs with
    | '-' :: r => (true, r)
    | r => (false, r)
  let ip := cs1.takeWhile Char.isDigit
  let cs2 := cs1.dropWhile Char.isDigit
  if ip.isEmpty then none
  else
    let (fp, cs3) :=
      match cs2 with
      | '.' :: r => (r.takeWhile Char.isDigit, r.dropWhile Char.isDigit)
      | _ => ([], cs2)
    let dotNoDigits : Bool :=
      match cs2 with
      | '.' :: _ => fp.isEmpty
      | _ => false
    if dotNoDigits then none
    else
      let base : ℚ := (digitsToNat ip : ℚ) + (digitsToNat fp : ℚ) / ((10 : ℚ) ^ fp.length)
      let signed : ℚ := if neg then -base else base
      match cs3 with
      | 'e' :: r =>
        match jsonSignedDigits r with
        | some (ex, cs4) =>
          some ((if 0 ≤ ex then signed * (10 : ℚ) ^ ex.toNat else signed / (10 : ℚ) ^ (-ex).toNat), cs4)
        | none => none
      | 'E' :: r =>
        match jsonSignedDigits r with
        | some (ex, cs4) =>
          some ((if 0 ≤ ex then signed * (10 : ℚ) ^ ex.toNat else signed / (10 : ℚ) ^ (-ex).toNat), cs4)
        | none => none
      | _ => some (signed, cs3)

mutual

def jsonValue : Nat → List Char → Option (Json × List Char)
  | 0, _ => none
  | fuel + 1, cs =>
    match jsonSkipWs cs with
    | 'n' :: 'u' :: 'l' :: 'l' :: r => some (Json.null, r)
    | 't' :: 'r' :: 'u' :: 'e' :: r => some (Json.bool true, r)
    | 'f' :: 'a' :: 'l' :: 's' :: 'e' :: r => some (Json.bool false, r)
    | '"' :: r => (jsonStringAux r.length [] r).map (fun p => (Json.str p.1, p.2))
    | '[' :: r =>
      match jsonSkipWs r with
      | ']' :: r2 => some (Json.arr [], r2)
      | cs2 => jsonArrItems fuel [] cs2
    | '{' :: r =>
      match jsonSkipWs r with
      | '}' :: r2 => some (Json.obj [], r2)
      | cs2 => jsonObjItems fuel [] cs2
    | cs' => (jsonNumber cs').map (fun p => (Json.num p.1, p.2))

def jsonArrItems : Nat → List Json → List Char → Option (Json × List Char)
  | 0, _, _ => none
  | fuel + 1, acc, cs =>
    match jsonValue fuel cs with
    | none => none
    | some (v, rest) =>
      match jsonSkipWs rest with
      | ',' :: r2 => jsonArrItems fuel (v :: acc) r2
      | ']' :: r2 => some (Json.arr (v :: acc).reverse, r2)
      | _ => none

def jsonObjItems : Nat → List (String × Json) → List Char → Option (Json × List Char)
  | 0, _, _ => none
  | fuel + 1, acc, cs =>
    match jsonSkipWs cs with
    | '"' :: r =>
      match jsonStringAux r.length [] r with
      | none => none
      | some (k, r2) =>
        match jsonSkipWs r2 with
        | ':' :: r3 =>
          match jsonValue fuel r3 with
          | none => none
          | some (v, r4) =>
            match jsonSkipWs r4 with
            | ',' :: r5 => jsonObjItems fuel ((k, v) :: acc) r5
            | '}' :: r5 => some (Json.obj ((k, v) :: acc).reverse, r5)
            | _ => none
        | _ => none
    | _ => none

end

/-- `JSON.parse`: `none` models a thrown `SyntaxError`. -/
def jsonParse (s : String) : Option Json :=
  match jsonValue (s.length + 1) s.toList with
  | some (v, rest) => if (jsonSkipWs rest).isEmpty then some v else none
  | none => none

/-! ## BillAnalyzer.analyze / StatementAnalyzer.analyze — response handling

The oracle outcome is abstracted as `Except Unit (Option String)`:
`error ()` = the API call threw (network/quota/timeout), `ok none` = the
response carried no text (`response.text` undefined), `ok (some s)` = the
raw response text. -/

/-- The match of the greedy regex `/\{[\s\S]*\}/`: the span from the first
`'{'` to the last `'}'`, when the latter comes after the former. -/
def braceSpan (s : String) : Option String :=
  let t := s.toList.dropWhile (fun c => c ≠ '{')
  let r := (t.reverse.dropWhile (fun c => c ≠ '}')).reverse
  if r.isEmpty then none else some (String.mk r)

/-- The match of the greedy regex `/\[[\s\S]*\]/`. -/
def bracketSpan (s : String) : Option String :=
  let t := s.toList.dropWhile (fun c => c ≠ '[')
  let r := (t.reverse.dropWhile (fun c => c ≠ ']')).reverse
  if r.isEmpty then none else some (String.mk r)

/-- Modelled from the spec: "locate the first balanced `{...}` span".  The
scan starts at the first `'{'` and returns the span once the brace depth
returns to zero. -/
def balancedBraceAux : Nat → List Char → List Char → Option (List Char)
  | _, _, [] => none
  | depth, acc, c :: rest =>
    if c = '{' then balancedBraceAux (depth + 1) (c :: acc) rest
    else if c = '}' then
      if depth = 1 then some (c :: acc).reverse
      else balancedBraceAux (depth - 1) (c :: acc) rest
    else balancedBraceAux depth (c :: acc) rest

/-- Modelled from the spec: the first balanced `{...}` span of the text. -/
def specFirstBalancedBraceSpan (s : String) : Option String :=
  match s.toList.dropWhile (fun c => c ≠ '{') with
  | [] => none
  | c :: rest => (balancedBraceAux 1 [c] rest).map String.mk

/-- `BillAnalyzer.analyze` after the oracle call (lines 41–53 of the
source): empty/undefined text, a failed regex match, a `JSON.parse` throw
and a thrown API call all become `null`. -/
def billAnalyze (resp : Except Unit (Option String)) : Option Json :=
  match resp with
  | Except.error _ => none
  | Except.ok none => none
  | Except.ok (some content) =>
    if content = "" then none
    else
      match braceSpan content with
      | none => none
      | some span => jsonParse span

/-- The validation filter of `StatementAnalyzer.analyze`:
`tx.date && tx.description && typeof tx.amount === "number" && tx.amount > 0
&& (tx.type === "debit" || tx.type === "credit")`. -/
def txFilter (j : Json) : Bool :=
  jsTruthyOpt (getField "date" j) &&
  jsTruthyOpt (getField "description" j) &&
  (match getField "amount" j with
   | some (Json.num q) => decide (0 < q)
   | _ => false) &&
  (match getField "type" j with
   | some (Json.str t) => t == "debit" || t == "credit"
   | _ => false)

/-- Modelled from the spec: "`date` is a non-empty string" (the claimed
keep-condition on the `date` field). -/
def dateIsNonEmptyString (j : Json) : Bool :=
  match getField "date" j with
  | some (Json.str t) => t != ""
  | _ => false

def isJsonNull : Json → Bool
  | Json.null => true
  | _ => false

/-- The filter callback as actually executed: on a `null` array element
the very first property access `tx.date` throws a `TypeError` (`none`
models the throw); on every other JSON value property access is defined
(`undefined` on non-objects, which is falsy), so the callback returns
`txFilter`. -/
def txFilterE (j : Json) : Option Bool :=
  match j with
  | Json.null => none
  | _ => some (txFilter j)

/-- `xs.filter(cb)` for a callback that may throw: the elements are
visited left to right and the first throw aborts the whole `filter` call
(`none`). -/
def jsFilterE (cb : Json → Option Bool) : List Json → Option (List Json)
  | [] => some []
  | j :: rest =>
    match cb j with
    | none => none
    | some b =>
      match jsFilterE cb rest with
      | none => none
      | some kept => some (if b then j :: kept else kept)

/-- `StatementAnalyzer.analyze` after the oracle call (lines 47–70 of the
source).  The `.filter` call runs inside the `try`: when the parsed span
is valid JSON but not an array, or when the filter callback throws
(a `null` element), the `catch` turns the exception into `[]` for the
whole call — valid sibling elements included. -/
def statementAnalyze (resp : Except Unit (Option String)) : List Json :=
  match resp with
  | Except.error _ => []
  | Except.ok none => []
  | Except.ok (some content) =>
    if content = "" then []
    else
      match bracketSpan content with
      | none => []
      | some span =>
        match jsonParse span with
        | some (Json.arr xs) =>
          match jsFilterE txFilterE xs with
          | some kept => kept
          | none => []
        | some _ => []
        | none => []

/-! ## Lemmas: the `findBestMatch` loop -/

/-- Any match produced by the loop is either the incoming accumulator or
built from some bill of the list with truthy amount and score ≥ 0.5. -/
theorem findBestMatchGo_some (tx : Transaction) :
    ∀ (bills : List Bill) (acc : Option Match) (sc : ℚ) (m : Match),
      findBestMatchGo tx bills acc sc = some m →
      acc = some m ∨
        ∃ b ∈ bills, amountTruthy b = true ∧ 1/2 ≤ calculateMatchScore tx b ∧
          m = mkMatch tx b (calculateMatchScore tx b) := by
  intro bills
  induction bills with
  | nil => intro acc sc m h; exact Or.inl h
  | cons b rest ih =>
    intro acc sc m h
    simp only [findBestMatchGo] at h
    by_cases hb : amountTruthy b = true
    · rw [if_pos hb] at h
      by_cases hcond : sc < calculateMatchScore tx b ∧ 1/2 ≤ calculateMatchScore tx b
      · rw [if_pos hcond] at h
        rcases ih _ _ _ h with hacc | ⟨b', hb', h2, h3, h4⟩
        · exact Or.inr ⟨b, List.mem_cons_self b rest, hb, hcond.2,
            (Option.some.inj hacc).symm⟩
        · exact Or.inr ⟨b', List.mem_cons_of_mem b hb', h2, h3, h4⟩
      · rw [if_neg hcond] at h
        rcases ih _ _ _ h with hacc | ⟨b', hb', h2, h3, h4⟩
        · exact Or.inl hacc
        · exact Or.inr ⟨b', List.mem_cons_of_mem b hb', h2, h3, h4⟩
    · rw [if_neg hb] at h
      rcases ih _ _ _ h with hacc | ⟨b', hb', h2, h3, h4⟩
      · exact Or.inl hacc
      · exact Or.inr ⟨b', List.mem_cons_of_mem b hb', h2, h3, h4⟩

/-- If every bill scores below 0.5, the loop never replaces the
accumulator. -/
theorem findBestMatchGo_low (tx : Transaction) :
    ∀ (bills : List Bill), (∀ b ∈ bills, calculateMatchScore tx b < 1/2) →
      ∀ (acc : Option Match) (sc : ℚ), findBestMatchGo tx bills acc sc = acc := by
  intro bills
  induction bills with
  | nil => intro _ acc sc; rfl
  | cons b rest ih =>
    intro hlow acc sc
    have hb : calculateMatchScore tx b < 1/2 := hlow b (List.mem_cons_self b rest)
    have hrest : ∀ b' ∈ rest, calculateMatchScore tx b' < 1/2 :=
      fun b' h' => hlow b' (List.mem_cons_of_mem b h')
    simp only [findBestMatchGo]
    by_cases hamt : amountTruthy b = true
    · rw [if_pos hamt, if_neg (fun hcond => absurd hcond.2 (not_le.mpr hb))]
      exact ih hrest acc sc
    · rw [if_neg hamt]
      exact ih hrest acc sc

/-- Bills with a falsy amount are never even scored: the loop factors
through the filter on `amountTruthy`. -/
theorem findBestMatchGo_filter (tx : Transaction) :
    ∀ (bills : List Bill) (acc : Option Match) (sc : ℚ),
      findBestMatchGo tx bills acc sc =
        findBestMatchGo tx (bills.filter amountTruthy) acc sc := by
  intro bills
  induction bills with
  | nil => intro acc sc; rfl
  | cons b rest ih =>
    intro acc sc
    by_cases hb : amountTruthy b = true
    · rw [List.filter_cons_of_pos hb]
      simp only [findBestMatchGo, if_pos hb]
      by_cases hcond : sc < calculateMatchScore tx b ∧ 1/2 ≤ calculateMatchScore tx b
      · rw [if_pos hcond, if_pos hcond, ih]
      · rw [if_neg hcond, if_neg hcond, ih]
    · rw [List.filter_cons_of_neg (by simpa using hb)]
      simp only [findBestMatchGo, if_neg hb]
      exact ih acc sc

/-- Characterization of the matches produced by `matchTransactionsToBills`. -/
theorem matchTransactionsToBills_mem {txs : List Transaction} {bills : List Bill}
    {m : Match} (hm : m ∈ matchTransactionsToBills txs bills) :
    ∃ tx ∈ txs, tx.type = "debit" ∧
      ∃ b ∈ bills, b.status ≠ "paid" ∧ amountTruthy b = true ∧
        1/2 ≤ calculateMatchScore tx b ∧ m = mkMatch tx b (calculateMatchScore tx b) := by
  simp only [matchTransactionsToBills, List.mem_filterMap] at hm
  obtain ⟨tx, htx, hf⟩ := hm
  by_cases hty : tx.type = "debit"
  · rw [if_pos hty] at hf
    rcases findBestMatchGo_some tx _ _ _ _ hf with hacc | ⟨b, hb, h2, h3, h4⟩
    · cases hacc
    · have hb' := List.mem_filter.mp hb
      refine ⟨tx, htx, hty, b, hb'.1, ?_, h2, h3, h4⟩
      simpa using hb'.2
  · rw [if_neg hty] at hf
    cases hf

/-! ## C7, C8, C10 -/

/-- C7: a composite score of exactly 0.5 qualifies as a match (shown on a
single-bill pool where it is trivially the best), a pool whose scores are
all below 0.5 — in particular 0.49 — yields no match, and the reported
confidence of any produced match is `round(score * 100)`. -/
theorem c7_threshold_and_confidence :
    (∀ (tx : Transaction) (b : Bill), amountTruthy b = true →
      calculateMatchScore tx b = 1/2 →
      findBestMatch tx [b] = some (mkMatch tx b (1/2)) ∧
        (mkMatch tx b (1/2)).confidence = 50) ∧
    (∀ (tx : Transaction) (bills : List Bill),
      (∀ b ∈ bills, calculateMatchScore tx b < 1/2) → findBestMatch tx bills = none) ∧
    (∀ (tx : Transaction) (bills : List Bill) (m : Match),
      findBestMatch tx bills = some m →
      ∃ b ∈ bills, 1/2 ≤ calculateMatchScore tx b ∧
        m = mkMatch tx b (calculateMatchScore tx b) ∧
        m.confidence = jsRound (calculateMatchScore tx b * 100)) := by
  refine ⟨?_, ?_, ?_⟩
  · intro tx b hb hs
    constructor
    · simp only [findBestMatch, findBestMatchGo, if_pos hb, hs]
      rw [if_pos (by norm_num)]
    · simp only [mkMatch]
      decide
  · intro tx bills hlow
    exact findBestMatchGo_low tx bills hlow none 0
  · intro tx bills m h
    rcases findBestMatchGo_some tx bills none 0 m h with hacc | ⟨b, hb, _, h3, h4⟩
    · cases hacc
    · exact ⟨b, hb, h3, h4, by rw [h4]; rfl⟩

/-- C7 witness: amount 100 vs 100 with no due date and no company scores
exactly 0.5 and is matched; amount 104 vs 100 with no due date and no
company scores 0.3 < 0.5 and is not. -/
theorem c7_witness :
    findBestMatch ⟨"2025-01-15", "payment", 100, "debit"⟩
        [⟨"1", none, some 100, none, "unpaid"⟩] =
      some (mkMatch ⟨"2025-01-15", "payment", 100, "debit"⟩
        ⟨"1", none, some 100, none, "unpaid"⟩ (1/2)) ∧
    findBestMatch ⟨"2025-06-01", "zzz", 104, "debit"⟩
        [⟨"1", none, some 100, none, "unpaid"⟩] = none :=
  ⟨(c7_threshold_and_confidence.1 _ _ (by decide) (by decide)).1,
   c7_threshold_and_confidence.2.1 _ _ (by
      intro b hb
      rw [List.mem_singleton] at hb
      subst hb
      decide)⟩

/-- C8: every produced match carries the fields of a debit transaction of
the input and of a non-paid bill of the input. -/
theorem c8_no_credit_no_paid (txs : List Transaction) (bills : List Bill) (m : Match)
    (hm : m ∈ matchTransactionsToBills txs bills) :
    (∃ tx ∈ txs, tx.type = "debit" ∧ m.transactionDate = tx.date ∧
      m.transactionDescription = tx.description ∧ m.transactionAmount = tx.amount) ∧
    (∃ b ∈ bills, b.status ≠ "paid" ∧ m.billId = b.id ∧ m.billCompany = b.company ∧
      m.billAmount = b.amount ∧ m.billDueDate = b.dueDate) := by
  obtain ⟨tx, htx, hty, b, hb, hst, _, _, hmk⟩ := matchTransactionsToBills_mem hm
  subst hmk
  exact ⟨⟨tx, htx, hty, rfl, rfl, rfl⟩, ⟨b, hb, hst, rfl, rfl, rfl, rfl⟩⟩

/-- C8 witness at a concrete matched pair. -/
theorem c8_witness :
    (∃ tx ∈ [(⟨"2025-01-15", "x", 104, "debit"⟩ : Transaction)], tx.type = "debit" ∧
      (mkMatch ⟨"2025-01-15", "x", 104, "debit"⟩
          ⟨"1", none, some 100, some "2025-01-15", "unpaid"⟩ (3/5)).transactionDate = tx.date ∧
      (mkMatch ⟨"2025-01-15", "x", 104, "debit"⟩
          ⟨"1", none, some 100, some "2025-01-15", "unpaid"⟩ (3/5)).transactionDescription = tx.description ∧
      (mkMatch ⟨"2025-01-15", "x", 104, "debit"⟩
          ⟨"1", none, some 100, some "2025-01-15", "unpaid"⟩ (3/5)).transactionAmount = tx.amount) ∧
    (∃ b ∈ [(⟨"1", none, some 100, some "2025-01-15", "unpaid"⟩ : Bill)], b.status ≠ "paid" ∧
      (mkMatch ⟨"2025-01-15", "x", 104, "debit"⟩
          ⟨"1", none, some 100, some "2025-01-15", "unpaid"⟩ (3/5)).billId = b.id ∧
      (mkMatch ⟨"2025-01-15", "x", 104, "debit"⟩
          ⟨"1", none, some 100, some "2025-01-15", "unpaid"⟩ (3/5)).billCompany = b.company ∧
      (mkMatch ⟨"2025-01-15", "x", 104, "debit"⟩
          ⟨"1", none, some 100, some "2025-01-15", "unpaid"⟩ (3/5)).billAmount = b.amount ∧
      (mkMatch ⟨"2025-01-15", "x", 104, "debit"⟩
          ⟨"1", none, some 100, some "2025-01-15", "unpaid"⟩ (3/5)).billDueDate = b.dueDate) :=
  c8_no_credit_no_paid _ _ _ (by decide)

/-- C10: every produced match points at a bill whose amount is non-null
and non-zero, and `findBestMatch` factors through the filter on truthy
amounts — a falsy-amount bill is never scored, so the amount division is
never evaluated with `bill.amount = 0`. -/
theorem c10_no_zero_amount :
    (∀ (txs : List Transaction) (bills : List Bill) (m : Match),
      m ∈ matchTransactionsToBills txs bills →
      ∃ a : ℚ, m.billAmount = some a ∧ a ≠ 0) ∧
    (∀ (tx : Transaction) (bills : List Bill),
      findBestMatch tx bills = findBestMatch tx (bills.filter amountTruthy)) := by
  constructor
  · intro txs bills m hm
    obtain ⟨tx, _, _, b, _, _, hamt, _, hmk⟩ := matchTransactionsToBills_mem hm
    subst hmk
    unfold amountTruthy at hamt
    match hb : b.amount with
    | some a =>
      rw [hb] at hamt
      exact ⟨a, by simp [mkMatch, hb], by simpa using hamt⟩
    | none => rw [hb] at hamt; cases hamt
  · intro tx bills
    exact findBestMatchGo_filter tx bills none 0

/-- C10 witness at a concrete matched pair. -/
theorem c10_witness :
    ∃ a : ℚ,
      (mkMatch ⟨"2025-01-15", "x", 104, "debit"⟩
        ⟨"1", none, some 100, some "2025-01-15", "unpaid"⟩ (3/5)).billAmount = some a ∧
      a ≠ 0 :=
  c10_no_zero_amount.1 [⟨"2025-01-15", "x", 104, "debit"⟩]
    [⟨"1", none, some 100, some "2025-01-15", "unpaid"⟩] _ (by decide)

/-! ## Lemmas: the batch loop -/

/-- With a non-negative start and positive width, `xs.slice(k, k + c)` is
`take c` of `drop k`. -/
theorem jsSlice_drop_take {α : Type} (xs : List α) (k : Nat) (c : Int) (hc : 0 < c) :
    jsSlice xs (k : Int) ((k : Int) + c) = (xs.drop k).take c.toNat := by
  unfold jsSlice jsSliceIdx
  rw [if_neg (by omega), if_neg (by omega)]
  have h2 : ((k : Int)).toNat = k := by omega
  have h3 : ((k : Int) + c).toNat = k + c.toNat := by omega
  rw [h2, h3]
  have htake : xs.take (min (k + c.toNat) xs.length) = xs.take (k + c.toNat) := by
    rcases le_total (k + c.toNat) xs.length with h | h
    · rw [min_eq_left h]
    · rw [min_eq_right h, List.take_length, List.take_of_length_le h]
  rw [htake]
  rcases le_total k xs.length with h | h
  · rw [min_eq_left h]
    exact (List.take_drop k c.toNat xs).symm
  · rw [min_eq_right h, List.drop_of_length_le (by simp),
      List.drop_of_length_le h, List.take_nil]

/-- The batch loop with positive concurrency maps `f` over the remaining
suffix, given enough fuel. -/
theorem analyzeBatchGo_complete {α β : Type} (f : α → β) (xs : List α) (c : Int)
    (hc : 0 < c) :
    ∀ (fuel : Nat) (k : Nat) (acc : List β), xs.length - k < fuel →
      analyzeBatchGo f xs c fuel (k : Int) acc = some (acc ++ (xs.drop k).map f) := by
  intro fuel
  induction fuel with
  | zero => intro k acc h; omega
  | succ n ih =>
    intro k acc h
    simp only [analyzeBatchGo]
    by_cases hk : k < xs.length
    · rw [if_pos (by exact_mod_cast hk)]
      rw [jsSlice_drop_take xs k c hc]
      have hcast : (k : Int) + c = ((k + c.toNat : Nat) : Int) := by omega
      rw [hcast, ih (k + c.toNat) _ (by omega)]
      rw [List.append_assoc, ← List.map_append, List.drop_take_append_drop]
    · rw [if_neg (by exact_mod_cast hk)]
      rw [List.drop_of_length_le (by omega), List.map_nil, List.append_nil]

/-- With non-positive concurrency and the index still inside the list, the
loop makes no progress: it exhausts any fuel. -/
theorem analyzeBatchGo_stuck {α β : Type} (f : α → β) (xs : List α) (c : Int)
    (hc : c ≤ 0) :
    ∀ (fuel : Nat) (i : Int) (acc : List β), i < (xs.length : Int) →
      analyzeBatchGo f xs c fuel i acc = none := by
  intro fuel
  induction fuel with
  | zero => intro i acc h; simp only [analyzeBatchGo]; rw [if_pos h]
  | succ n ih =>
    intro i acc h
    simp only [analyzeBatchGo]
    rw [if_pos h]
    exact ih _ _ (by omega)

/-- The spec's chunking really partitions the list. -/
theorem specChunks_flatten {α : Type} (c : Nat) :
    ∀ (n : Nat) (xs : List α), xs.length ≤ n → (specChunks c xs).flatten = xs := by
  intro n
  induction n with
  | zero =>
    intro xs h
    have : xs = [] := List.eq_nil_of_length_eq_zero (Nat.le_zero.mp h)
    subst this
    simp [specChunks]
  | succ n ih =>
    intro xs h
    match xs with
    | [] => simp [specChunks]
    | x :: rest =>
      rw [specChunks]
      rw [List.flatten_cons, ih (rest.drop (c - 1)) (by simp only [List.length_drop]; simp at h; omega)]
      simp only [List.cons_append, List.take_append_drop]

/-! ## C2, C9 -/

/-- C2: with positive concurrency the batch loop returns exactly the
per-document outcomes in input order — it equals the flattened image of
the spec's consecutive-chunk partition, the result list has the input's
length, and the `i`-th result is the outcome for the `i`-th document. -/
theorem c2_batch_order {α β : Type} (f : α → β) (xs : List α) (c : Int) (hc : 0 < c) :
    analyzeBatch f xs c = some (xs.map f) ∧
    analyzeBatch f xs c =
      some (((specChunks c.toNat xs).map (fun chunk => chunk.map f)).flatten) ∧
    (xs.map f).length = xs.length ∧
    (∀ i : Nat, (xs.map f)[i]? = (xs[i]?).map f) := by
  have hmain : analyzeBatch f xs c = some (xs.map f) := by
    unfold analyzeBatch
    have := analyzeBatchGo_complete f xs c hc (xs.length + 1) 0 [] (by omega)
    simpa using this
  refine ⟨hmain, ?_, by simp, fun i => by simp⟩
  rw [hmain]
  congr 1
  rw [← List.map_flatten, specChunks_flatten c.toNat xs.length xs le_rfl]

/-- C2 witness at a concrete list and concurrency. -/
theorem c2_witness :
    analyzeBatch (fun n : Nat => n + 1) [1, 2, 3] 2 = some [2, 3, 4] :=
  (c2_batch_order (fun n : Nat => n + 1) [1, 2, 3] 2 (by decide)).1

/-- C9 counterexample: with concurrency 0 and a non-empty input the batch
call terminates under no fuel at all — there is no rejected/failed call,
the loop simply never finishes. -/
theorem c9_counterexample :
    ¬ batchCompletes (fun n : Nat => n) [0] (0 : Int) ∧
    analyzeBatch (fun n : Nat => n) [0] (0 : Int) = none := by
  constructor
  · rintro ⟨fuel, r, h⟩
    rw [analyzeBatchGo_stuck (fun n : Nat => n) [0] 0 le_rfl fuel 0 [] (by decide)] at h
    cases h
  · rfl

/-- C9 amended: a call with non-positive concurrency and a non-empty
document list never terminates (the loop index never advances past the
list), instead of surfacing a rejected/failed call. -/
theorem c9_amended {α β : Type} (f : α → β) (xs : List α) (c : Int)
    (hc : c ≤ 0) (hxs : xs ≠ []) :
    ¬ batchCompletes f xs c ∧ analyzeBatch f xs c = none := by
  have hlen : 0 < xs.length := List.length_pos.mpr hxs
  constructor
  · rintro ⟨fuel, r, h⟩
    rw [analyzeBatchGo_stuck f xs c hc fuel 0 [] (by exact_mod_cast hlen)] at h
    cases h
  · unfold analyzeBatch
    exact analyzeBatchGo_stuck f xs c hc _ 0 [] (by exact_mod_cast hlen)

/-- C9 amended witness. -/
theorem c9_amended_witness :
    ¬ batchCompletes (fun n : Nat => n + 1) [5, 6] (-3 : Int) ∧
    analyzeBatch (fun n : Nat => n + 1) [5, 6] (-3 : Int) = none :=
  c9_amended (fun n : Nat => n + 1) [5, 6] (-3 : Int) (by decide) (by decide)

/-! ## C5 -/

/-- C5: `fullContent` is at most 5000 characters, equals
`body + pdfText` whenever that concatenation fits, and is always exactly
the leading 5000 characters of the concatenation (totality of the
definition is the model of "never throws"). -/
theorem c5_fullcontent_truncation (e : Email) :
    (fullContent e).length ≤ 5000 ∧
    ((e.body ++ e.pdfText).length ≤ 5000 → fullContent e = e.body ++ e.pdfText) ∧
    fullContent e = (e.body ++ e.pdfText).take 5000 := by
  refine ⟨?_, ?_, rfl⟩
  · simp only [fullContent, List.length_take]
    omega
  · intro h
    simp only [fullContent, List.take_of_length_le h]

/-- C5 witness on a small concrete email. -/
theorem c5_witness :
    fullContent ⟨[], [], [], [], ['a'], ['b']⟩ = ['a'] ++ ['b'] :=
  (c5_fullcontent_truncation ⟨[], [], [], [], ['a'], ['b']⟩).2.1 (by decide)

/-! ## C4 -/

/-- C4 counterexample: the payload has a `text/plain` segment (whose
decoded content is empty), yet the body comes from the `text/html`
segment — `" hi "`, not `""` as the claim's strict cascade ("the html
branch is never consulted") predicts. -/
theorem c4_counterexample :
    extractBody ⟨none, some [⟨"text/plain", some ⟨some ""⟩⟩,
        ⟨"text/html", some ⟨some "<b>hi</b>"⟩⟩]⟩ = " hi " ∧
    (" hi " : String) ≠ "" ∧
    ([⟨"text/plain", some ⟨some ""⟩⟩,
        (⟨"text/html", some ⟨some "<b>hi</b>"⟩⟩ : MessagePart)].find?
      (fun q => q.mimeType == "text/plain")).isSome = true := by
  refine ⟨by decide, by decide, by decide⟩

/-- C4 amended: a truthy inline payload wins; otherwise the first
`text/plain` segment wins when its decoded content is non-empty; the
`text/html` branch is consulted exactly when the plain branch produced an
empty body; with no parts (or nothing truthy) the body is empty. -/
theorem c4_body_cascade :
    (∀ (p : MessagePayload) (s : String), truthyData p.body = some s → extractBody p = s) ∧
    (∀ p : MessagePayload, truthyData p.body = none → p.parts = none → extractBody p = "") ∧
    (∀ (p : MessagePayload) (parts : List MessagePart) (s : String),
      truthyData p.body = none → p.parts = some parts → plainBodyOf parts = s → s ≠ "" →
      extractBody p = s) ∧
    (∀ (p : MessagePayload) (parts : List MessagePart) (hp : MessagePart) (s : String),
      truthyData p.body = none → p.parts = some parts → plainBodyOf parts = "" →
      parts.find? (fun q => q.mimeType == "text/html") = some hp →
      truthyData hp.body = some s →
      extractBody p = String.mk (collapseWs (stripTags s.toList))) ∧
    (∀ (parts : List MessagePart) (tp : MessagePart) (s : String),
      parts.find? (fun q => q.mimeType == "text/plain") = some tp →
      truthyData tp.body = some s → plainBodyOf parts = s) := by
  refine ⟨?_, ?_, ?_, ?_, ?_⟩
  · intro p s h
    simp only [extractBody, h]
  · intro p h1 h2
    simp only [extractBody, h1, h2]
  · intro p parts s h1 h2 h3 h4
    simp only [extractBody, h1, h2, h3, if_pos h4]
  · intro p parts hp s h1 h2 h3 h4 h5
    simp [extractBody, h1, h2, h3, h4, h5]
  · intro parts tp s h1 h2
    simp only [plainBodyOf, h1, h2]

/-- C4 witness: a non-empty `text/plain` segment becomes the body. -/
theorem c4_witness :
    extractBody ⟨none, some [⟨"text/plain", some ⟨some "hello"⟩⟩]⟩ = "hello" :=
  c4_body_cascade.2.2.1 _ [⟨"text/plain", some ⟨some "hello"⟩⟩] "hello" rfl rfl
    (by decide) (by decide)

/-! ## C3 -/

/-- C3 counterexample: on a response holding two JSON objects the code's
greedy regex spans from the first `{` to the last `}` and `JSON.parse`
then throws, so `analyze` yields `null` — whereas the first *balanced*
`{...}` span of the claim exists and parses. -/
theorem c3_counterexample :
    billAnalyze (Except.ok (some "\x7b\"a\":1\x7d x \x7b\"b\":2\x7d")) = none ∧
    specFirstBalancedBraceSpan "\x7b\"a\":1\x7d x \x7b\"b\":2\x7d" = some "\x7b\"a\":1\x7d" ∧
    (jsonParse "\x7b\"a\":1\x7d").isSome = true :=
  ⟨rfl, rfl, rfl⟩

/-- C3 amended: the consumer takes the span from the first `{` to the
last `}` (the greedy regex match) and parses that; a failed oracle call,
an empty response, a failed regex match, or a `JSON.parse` failure all
yield `null` as a value — never an exception. -/
theorem c3_brace_span_null :
    (∀ e : Unit, billAnalyze (Except.error e) = none) ∧
    billAnalyze (Except.ok none) = none ∧
    (∀ content : String, braceSpan content = none →
      billAnalyze (Except.ok (some content)) = none) ∧
    (∀ content span : String, braceSpan content = some span →
      billAnalyze (Except.ok (some content)) = jsonParse span) := by
  refine ⟨fun e => rfl, rfl, ?_, ?_⟩
  · intro content h
    by_cases hc : content = ""
    · rw [hc]; rfl
    · simp only [billAnalyze, if_neg hc, h]
  · intro content span h
    have hc : content ≠ "" := by
      intro he
      rw [he, show braceSpan "" = none from rfl] at h
      cases h
    simp only [billAnalyze, if_neg hc, h]

/-- C3 witness: prose around a single object is stripped to the span and
parsed. -/
theorem c3_witness :
    billAnalyze (Except.ok (some "x \x7b\"a\": 2\x7d y")) = jsonParse "\x7b\"a\": 2\x7d" :=
  c3_brace_span_null.2.2.2 "x \x7b\"a\": 2\x7d y" "\x7b\"a\": 2\x7d" rfl

/-! ## C6 -/

/-- On a non-null element the callback does not throw and computes the
truthiness filter. -/
theorem txFilterE_eq (j : Json) (h : isJsonNull j = false) :
    txFilterE j = some (txFilter j) := by
  match j with
  | Json.null => simp [isJsonNull] at h
  | Json.bool _ => rfl
  | Json.num _ => rfl
  | Json.str _ => rfl
  | Json.arr _ => rfl
  | Json.obj _ => rfl

/-- When no element is `null`, the throwing filter is the element-wise
filter. -/
theorem jsFilterE_no_null :
    ∀ xs : List Json, xs.all (fun j => !(isJsonNull j)) = true →
      jsFilterE txFilterE xs = some (xs.filter txFilter) := by
  intro xs
  induction xs with
  | nil => intro _; rfl
  | cons j rest ih =>
    intro h
    simp only [List.all_cons, Bool.and_eq_true, Bool.not_eq_eq_eq_not, Bool.not_true] at h
    simp only [jsFilterE, txFilterE_eq j h.1, ih (by simpa using h.2)]
    by_cases hf : txFilter j = true
    · simp [List.filter_cons, hf]
    · simp [List.filter_cons, hf]

/-- A `null` element anywhere in the array makes the filter call throw. -/
theorem jsFilterE_null :
    ∀ xs : List Json, xs.any isJsonNull = true → jsFilterE txFilterE xs = none := by
  intro xs
  induction xs with
  | nil => intro h; simp at h
  | cons j rest ih =>
    intro h
    simp only [List.any_cons, Bool.or_eq_true] at h
    rcases h with h | h
    · have hj : txFilterE j = none := by
        match j with
        | Json.null => rfl
        | Json.bool _ => simp [isJsonNull] at h
        | Json.num _ => simp [isJsonNull] at h
        | Json.str _ => simp [isJsonNull] at h
        | Json.arr _ => simp [isJsonNull] at h
        | Json.obj _ => simp [isJsonNull] at h
      simp [jsFilterE, hj]
    · cases hj : txFilterE j with
      | none => simp [jsFilterE, hj]
      | some b => simp [jsFilterE, hj, ih h]

/-- C6 counterexample: an element whose `date` is the *number* 2025 (not
a non-empty string) is kept by the code's truthiness filter, refuting the
claimed "kept if and only if `date` is a non-empty string". -/
theorem c6_counterexample :
    (statementAnalyze (Except.ok
      (some "[\x7b\"date\":2025,\"description\":\"x\",\"amount\":5,\"type\":\"debit\"\x7d]"))).length = 1 ∧
    (statementAnalyze (Except.ok
      (some "[\x7b\"date\":2025,\"description\":\"x\",\"amount\":5,\"type\":\"debit\"\x7d]"))).all
      dateIsNonEmptyString = false :=
  ⟨rfl, rfl⟩

/-- C6 amended: the span runs from the first `[` to the last `]` (the
greedy regex match); oracle failure, empty response, a failed regex match
or a `JSON.parse` failure yield `[]`; on a parsed array with no `null`
element an element is kept iff its `date` and `description` fields are
truthy (any truthy value, not only non-empty strings), its `amount` is a
number strictly greater than 0, and its `type` is exactly `"debit"` or
`"credit"`; but a `null` element makes the filter callback throw, and the
catch then returns `[]` for the whole call — valid siblings included, so
non-null invalid elements are dropped silently while a `null` element is
not. -/
theorem c6_statement_filter :
    (∀ e : Unit, statementAnalyze (Except.error e) = []) ∧
    statementAnalyze (Except.ok none) = [] ∧
    (∀ content : String, bracketSpan content = none →
      statementAnalyze (Except.ok (some content)) = []) ∧
    (∀ content span : String, bracketSpan content = some span → jsonParse span = none →
      statementAnalyze (Except.ok (some content)) = []) ∧
    (∀ (content span : String) (xs : List Json), bracketSpan content = some span →
      jsonParse span = some (Json.arr xs) → xs.all (fun j => !(isJsonNull j)) = true →
      statementAnalyze (Except.ok (some content)) = xs.filter txFilter) ∧
    (∀ (content span : String) (xs : List Json), bracketSpan content = some span →
      jsonParse span = some (Json.arr xs) → xs.any isJsonNull = true →
      statementAnalyze (Except.ok (some content)) = []) ∧
    (∀ j : Json, txFilter j = true ↔
      (jsTruthyOpt (getField "date" j) = true ∧
       jsTruthyOpt (getField "description" j) = true ∧
       (∃ q : ℚ, getField "amount" j = some (Json.num q) ∧ 0 < q) ∧
       (getField "type" j = some (Json.str "debit") ∨
        getField "type" j = some (Json.str "credit")))) := by
  have hne : ∀ (content span : String), bracketSpan content = some span → content ≠ "" := by
    intro content span h he
    rw [he, show bracketSpan "" = none from rfl] at h
    cases h
  refine ⟨fun e => rfl, rfl, ?_, ?_, ?_, ?_, ?_⟩
  · intro content h
    by_cases hc : content = ""
    · rw [hc]; rfl
    · simp only [statementAnalyze, if_neg hc, h]
  · intro content span h hp
    simp only [statementAnalyze, if_neg (hne content span h), h, hp]
  · intro content span xs h hp hnn
    simp only [statementAnalyze, if_neg (hne content span h), h, hp,
      jsFilterE_no_null xs hnn]
  · intro content span xs h hp hnull
    simp only [statementAnalyze, if_neg (hne content span h), h, hp,
      jsFilterE_null xs hnull]
  · intro j
    unfold txFilter
    simp only [Bool.and_eq_true]
    constructor
    · rintro ⟨⟨⟨h1, h2⟩, h3⟩, h4⟩
      refine ⟨h1, h2, ?_, ?_⟩
      · split at h3
        · next q heq => exact ⟨q, heq, by simpa using h3⟩
        · cases h3
      · split at h4
        · next t heq =>
          simp only [Bool.or_eq_true, beq_iff_eq] at h4
          rcases h4 with h | h
          · exact Or.inl (by rw [heq, h])
          · exact Or.inr (by rw [heq, h])
        · cases h4
    · rintro ⟨h1, h2, ⟨q, heq, hq⟩, hty⟩
      refine ⟨⟨⟨h1, h2⟩, ?_⟩, ?_⟩
      · rw [heq]
        simpa using hq
      · rcases hty with h | h <;> rw [h] <;> simp

/-- C6 witness: no array span yields `[]`; a null-free array is filtered
element-wise; a `null` element empties the whole result. -/
theorem c6_witness :
    statementAnalyze (Except.ok (some "No transactions found.")) = [] ∧
    statementAnalyze (Except.ok (some "[true]")) = [Json.bool true].filter txFilter ∧
    statementAnalyze (Except.ok (some "[null]")) = [] :=
  ⟨c6_statement_filter.2.2.1 "No transactions found." rfl,
   c6_statement_filter.2.2.2.2.1 "[true]" "[true]" [Json.bool true] rfl rfl rfl,
   c6_statement_filter.2.2.2.2.2.1 "[null]" "[null]" [Json.null] rfl rfl rfl⟩

/-! ## C1 -/

/-- C1 counterexample: transaction $104 (debit, dated on the due date)
against an unpaid $100 bill with no company yields amount 0.3 + date 0.3
+ name 0 = 0.6, reported as confidence **60** — not the claimed 80. -/
theorem c1_counterexample :
    (matchTransactionsToBills [⟨"2025-01-15", "x", 104, "debit"⟩]
        [⟨"1", none, some 100, some "2025-01-15", "unpaid"⟩]).map Match.confidence = [60] ∧
    (matchTransactionsToBills [⟨"2025-01-15", "x", 104, "debit"⟩]
        [⟨"1", none, some 100, some "2025-01-15", "unpaid"⟩]).map Match.confidence ≠ [80] :=
  ⟨by decide, by decide⟩

/-- C1 amended: under the claim's hypotheses the amount component is 0.3,
the date component 0.3 and the name component 0, the match is produced
with confidence **60** (not 80); and a relative amount difference above 5%
yields score 0 and no match at all. -/
theorem c1_amount_boundary :
    (∀ (tx : Transaction) (b : Bill) (a : ℚ),
      tx.type = "debit" → b.status ≠ "paid" → b.company = none → b.amount = some a →
      2/100 < |tx.amount - a| / a → |tx.amount - a| / a ≤ 5/100 →
      b.dueDate = some tx.date → (parseIsoDate tx.date).isSome = true →
      calculateMatchScore tx b = 3/5 ∧
      matchTransactionsToBills [tx] [b] = [mkMatch tx b (3/5)] ∧
      (mkMatch tx b (3/5)).confidence = 60) ∧
    (∀ (tx : Transaction) (b : Bill) (a : ℚ),
      b.amount = some a → 5/100 < |tx.amount - a| / a →
      calculateMatchScore tx b = 0 ∧ matchTransactionsToBills [tx] [b] = []) := by
  constructor
  · intro tx b a htype hstatus hco hamt hlo hhi hdd hparse
    have ha : a ≠ 0 := by
      intro h0
      rw [h0, div_zero] at hlo
      exact absurd hlo (by norm_num)
    have htruthy : amountTruthy b = true := by
      simp [amountTruthy, hamt, ha]
    have hdate : ¬ (tx.date = "") := by
      intro h0
      rw [h0] at hparse
      exact absurd hparse (by decide)
    obtain ⟨t, ht⟩ := Option.isSome_iff_exists.mp hparse
    have hds : dateScore tx b = 3/10 := by
      simp only [dateScore, hdd, if_neg hdate, ht]
      rw [if_pos (by omega)]
    have hns : nameScore tx b = 0 := by
      simp [nameScore, hco]
    have hscore : calculateMatchScore tx b = 3/5 := by
      simp only [calculateMatchScore, if_pos htruthy, hamt, Option.getD_some]
      rw [if_neg (not_le.mpr hlo), if_pos hhi, hds, hns]
      norm_num
    refine ⟨hscore, ?_, by show jsRound (3/5 * 100) = 60; decide⟩
    have hfb : findBestMatch tx [b] = some (mkMatch tx b (3/5)) := by
      rw [findBestMatch]
      simp only [findBestMatchGo, if_pos htruthy, hscore]
      rw [if_pos (by norm_num)]
    simp [matchTransactionsToBills, hstatus, htype, hfb]
  · intro tx b a hamt hhi
    have ha : a ≠ 0 := by
      intro h0
      rw [h0, div_zero] at hhi
      exact absurd hhi (by norm_num)
    have htruthy : amountTruthy b = true := by
      simp [amountTruthy, hamt, ha]
    have hscore : calculateMatchScore tx b = 0 := by
      simp only [calculateMatchScore, if_pos htruthy, hamt, Option.getD_some]
      rw [if_neg (not_le.mpr (lt_trans (by norm_num) hhi)), if_neg (not_le.mpr hhi)]
    refine ⟨hscore, ?_⟩
    have hfb : findBestMatch tx [b] = none := by
      rw [findBestMatch]
      simp only [findBestMatchGo, if_pos htruthy, hscore]
      rw [if_neg (by norm_num)]
    by_cases hst : b.status = "paid"
    · by_cases hty : tx.type = "debit"
      · simp [matchTransactionsToBills, hst, hty, findBestMatch, findBestMatchGo]
      · simp [matchTransactionsToBills, hst, hty]
    · by_cases hty : tx.type = "debit"
      · simp [matchTransactionsToBills, hst, hty, hfb]
      · simp [matchTransactionsToBills, hst, hty]

/-- C1 amended witness at the claim's literal inputs ($104 and $110
against a $100 bill due the transaction day). -/
theorem c1_amended_witness :
    calculateMatchScore ⟨"2025-01-15", "x", 104, "debit"⟩
        ⟨"1", none, some 100, some "2025-01-15", "unpaid"⟩ = 3/5 ∧
    matchTransactionsToBills [⟨"2025-01-15", "x", 104, "debit"⟩]
        [⟨"1", none, some 100, some "2025-01-15", "unpaid"⟩] =
      [mkMatch ⟨"2025-01-15", "x", 104, "debit"⟩
        ⟨"1", none, some 100, some "2025-01-15", "unpaid"⟩ (3/5)] ∧
    calculateMatchScore ⟨"2025-01-15", "x", 110, "debit"⟩
        ⟨"1", none, some 100, some "2025-01-15", "unpaid"⟩ = 0 ∧
    matchTransactionsToBills [⟨"2025-01-15", "x", 110, "debit"⟩]
        [⟨"1", none, some 100, some "2025-01-15", "unpaid"⟩] = [] := by
  have h1 := c1_amount_boundary.1 ⟨"2025-01-15", "x", 104, "debit"⟩
    ⟨"1", none, some 100, some "2025-01-15", "unpaid"⟩ 100
    rfl (by decide) rfl rfl (by decide) (by decide) rfl (by decide)
  have h2 := c1_amount_boundary.2 ⟨"2025-01-15", "x", 110, "debit"⟩
    ⟨"1", none, some 100, some "2025-01-15", "unpaid"⟩ 100
    rfl (by decide)
  exact ⟨h1.1, h1.2.1, h2.1, h2.2⟩

